import Mathlib

/-!
Verification of the `NoiseModel` base class from
`cleaningbenchmark/NoiseModels/NoiseModel.py`.

The Python class is shallowly embedded:
* Python exceptions become the `PyError` type; fallible operations return
  `Except PyError _` (paired with the post-call object state where the
  Python method mutates `self`).
* A dataset is either a numpy 2-D object array (a rectangular list of
  rows) or a pandas DataFrame (row labels, column labels, and rows).
  Both are values of `PyData`.
* Python 2 semantics are used (as the source requires): `range(0, n)`
  produces a list, `sorted` compares lists elementwise, and `round`
  rounds half away from zero.
* `random.shuffle(range(0, N))` is modelled by passing the shuffled list
  as an explicit argument; theorems assume it is a permutation of
  `List.range N`, which is exactly the set of outcomes `random.shuffle`
  can produce.
* `np.empty(X.shape, dtype=object)` (respectively the blank
  `pd.DataFrame(index=..., columns=...)`) holds unspecified cells before
  the row writes; it is modelled as a grid of `default` cells.  Every
  cell is overwritten before the result is returned.
* numpy / pandas row-slice assignment `A[idxs, :] = B` requires the
  value to match the target block's shape (otherwise it raises); this is
  modelled by an explicit shape guard in `NoiseModel.applyRun`, and the
  write itself by `setRows`.  The indices used by `apply` always come
  from a shuffle of `range(0, N)`, so indexing is in range on every
  reachable path and is modelled with the total `List.getD` / `List.set`.
-/

/-- Python exceptions raised by `NoiseModel.py`. `ValueError` carries its
message; the spec calls the constructor-time `ValueError`s
`ConfigurationError` and the `apply`-time shape `ValueError`
`ShapeMismatchError`. -/
inductive PyError where
  | indexError : PyError
  | valueError : String → PyError
  | notImplementedError : PyError
deriving DecidableEq

instance {ε α : Type} [DecidableEq ε] [DecidableEq α] :
    DecidableEq (Except ε α) := fun
  | .error a, .error b =>
    if h : a = b then .isTrue (by rw [h])
    else .isFalse (fun hc => by cases hc; exact h rfl)
  | .error _, .ok _ => .isFalse (fun hc => by cases hc)
  | .ok _, .error _ => .isFalse (fun hc => by cases hc)
  | .ok a, .ok b =>
    if h : a = b then .isTrue (by rw [h])
    else .isFalse (fun hc => by cases hc; exact h rfl)

/-- Python 2 `range(0, n)` on an `int` bound (negative bound gives `[]`),
as a list of Python ints. -/
def pyRange (n : Int) : List Int :=
  (List.range n.toNat).map Int.ofNat

/-- Insertion step for `pySorted`. -/
def pyInsert (a : Int) : List Int → List Int
  | [] => [a]
  | b :: bs => if a ≤ b then a :: b :: bs else b :: pyInsert a bs

/-- Python `sorted` on a list of ints (ascending). -/
def pySorted : List Int → List Int
  | [] => []
  | a :: as => pyInsert a (pySorted as)

/-- Python 2 `round`: round half away from zero. -/
def pyRound (q : ℚ) : Int :=
  if 0 ≤ q then ⌊q + 1/2⌋ else ⌈q - 1/2⌉

/-- The mutable state of a Python `NoiseModel` instance.
`argselect` is the field the spec calls `lastSampledIndices`; it is not
assigned by `__init__` (that is `none`) and is set by every successful
sampling pass of `apply`. -/
structure NoiseModel where
  shape : List Int
  probability : ℚ
  feature_importance : List Int
  one_cell_flag : Bool
  argselect : Option (List Nat)
deriving DecidableEq

/-- `NoiseModel.__init__`, lines 24-54 of the source.  Field assignments
come first; when `feature_importance == []` the default
`range(0, shape[1])` is computed (an out-of-range `shape[1]` raises
`IndexError` at this point, before any validation); then the three
validation checks run in source order: shape, probability,
feature importance. -/
def NoiseModel.init (shape : List Int) (probability : ℚ)
    (feature_importance : List Int) (one_cell_flag : Bool) :
    Except PyError NoiseModel :=
  let fiOpt : Except PyError (List Int) :=
    if feature_importance = [] then
      match shape.get? 1 with
      | none => .error .indexError
      | some c => .ok (pyRange c)
    else .ok feature_importance
  match fiOpt with
  | .error e => .error e
  | .ok fi =>
    if shape.length = 2 ∧ 0 < shape.getD 0 0 ∧ 0 < shape.getD 1 0 then
      if 0 ≤ probability ∧ probability ≤ 1 then
        if pySorted fi = pyRange (shape.getD 1 0) then
          .ok ⟨shape, probability, fi, one_cell_flag, none⟩
        else .error (.valueError ("Invalid feature_importance"))
      else .error (.valueError ("Invalid probability"))
    else .error (.valueError ("Invalid shape"))

/-- A pandas DataFrame: row labels (`index`), column labels, rows. -/
structure DataFrame (α : Type) where
  index : List String
  columns : List String
  data : List (List α)
deriving DecidableEq

/-- A dataset accepted by `apply`: a numpy 2-D array or a DataFrame. -/
inductive PyData (α : Type) where
  | arr : List (List α) → PyData α
  | df : DataFrame α → PyData α
deriving DecidableEq

/-- The rows of a dataset, as lists of cells. -/
def PyData.rows : PyData α → List (List α)
  | .arr r => r
  | .df d => d.data

/-- First component of `np.shape`. -/
def PyData.nrows : PyData α → Nat
  | .arr r => r.length
  | .df d => d.index.length

/-- Second component of `np.shape`. -/
def PyData.ncols : PyData α → Nat
  | .arr r => (r.head?.map List.length).getD 0
  | .df d => d.columns.length

/-- `np.shape(X)`, as a Python tuple of ints (modelled as a list, so it
can be compared against the stored `shape` tuple of any length). -/
def PyData.npShape (X : PyData α) : List Int :=
  [(X.nrows : Int), (X.ncols : Int)]

/-- Well-formedness of a dataset value: the row list agrees with the
declared row count and every row has the declared column count (true of
every actual 2-D ndarray / DataFrame). -/
def PyData.WF (X : PyData α) : Prop :=
  X.rows.length = X.nrows ∧ ∀ r ∈ X.rows, r.length = X.ncols

instance (X : PyData α) : Decidable X.WF := by
  unfold PyData.WF; infer_instance

/-- Row selection `l[idxs]` for in-range index lists (numpy fancy
indexing / `iloc` row selection). -/
def pySelect [Inhabited β] (l : List β) (idxs : List Nat) : List β :=
  idxs.map (fun i => l.getD i default)

/-- Row-slice assignment `g[idxs, :] = vals` (numpy fancy-index write /
`iloc` write): write `vals[k]` at row `idxs[k]`. -/
def setRows : List β → List Nat → List β → List β
  | g, i :: is, v :: vs => setRows (g.set i v) is vs
  | g, _, _ => g

/-- The sub-dataset `X[idxs, :]` / `X.iloc[idxs, :]`: selected rows, in
the order of `idxs`, with row labels carried along for a DataFrame. -/
def PyData.sub [Inhabited α] (X : PyData α) (idxs : List Nat) : PyData α :=
  match X with
  | .arr rows => .arr (pySelect rows idxs)
  | .df d => .df ⟨pySelect d.index idxs, d.columns, pySelect d.data idxs⟩

/-- Lines 70-76 of `apply`: `Ns = int(round(N*self.probability))`,
shuffle `range(0, N)`, split into the to-corrupt head and clean tail. -/
def sampleSplit (N : Nat) (p : ℚ) (shuffled : List Nat) :
    List Nat × List Nat :=
  let Ns := (pyRound ((N : ℚ) * p)).toNat
  (shuffled.take Ns, shuffled.drop Ns)

/-- The row assembly of `apply` (both container branches do exactly
this): allocate a blank full-size grid, write the corrupted rows at the
to-corrupt indices, then write the input's rows at the clean indices. -/
def corruptRows [Inhabited α] (rows crows : List (List α))
    (tc cl : List Nat) (nr nc : Nat) : List (List α) :=
  setRows (setRows (List.replicate nr (List.replicate nc default)) tc crows)
    cl (pySelect rows cl)

/-- `NoiseModel.apply`, lines 63-94 of the source, with the shuffle
outcome passed explicitly and the subclass's `corrupt` method passed as
`corruptFn`.  Returns the Python result (or the exception propagated)
together with the instance state after the call. `toInt` is the cell
cast performed by `astype(np.int)` when `int_cast` is set (numpy branch
only, as in the source). -/
def NoiseModel.applyRun [Inhabited α] (m : NoiseModel)
    (corruptFn : PyData α → Except PyError (PyData α))
    (shuffled : List Nat) (X : PyData α)
    (int_cast : Bool) (toInt : α → α) :
    Except PyError (PyData α × PyData α) × NoiseModel :=
  if X.npShape ≠ m.shape then
    (.error (.valueError ("The input does not match the shape of the Noise Model")), m)
  else
    let N : Nat := (m.shape.getD 0 0).toNat
    let tocorrupt := (sampleSplit N m.probability shuffled).1
    let clean := (sampleSplit N m.probability shuffled).2
    let m' : NoiseModel := { m with argselect := some tocorrupt }
    match X with
    | .arr rows =>
      match corruptFn (PyData.sub (.arr rows) tocorrupt) with
      | .error e => (.error e, m')
      | .ok (.df _) => (.error (.valueError ("could not broadcast input array")), m')
      | .ok (.arr crows) =>
        if crows.length = tocorrupt.length ∧
            ∀ r ∈ crows, r.length = (PyData.arr rows).ncols then
          let outRows := corruptRows rows crows tocorrupt clean
            (PyData.arr rows).nrows (PyData.arr rows).ncols
          let outRows := if int_cast then outRows.map (fun r => r.map toInt) else outRows
          (.ok (.arr outRows, .arr rows), m')
        else (.error (.valueError ("could not broadcast input array")), m')
    | .df d =>
      match corruptFn (PyData.sub (.df d) tocorrupt) with
      | .error e => (.error e, m')
      | .ok (.arr _) => (.error (.valueError ("incompatible value assignment")), m')
      | .ok (.df cd) =>
        if cd.data.length = tocorrupt.length ∧
            ∀ r ∈ cd.data, r.length = (PyData.df d).ncols then
          (.ok (.df ⟨d.index, d.columns,
              corruptRows d.data cd.data tocorrupt clean
                (PyData.df d).nrows (PyData.df d).ncols⟩, .df d), m')
        else (.error (.valueError ("shape mismatch on iloc assignment")), m')

/-- The base class's `corrupt` method, lines 99-100: unconditionally
raises `NotImplementedError`. -/
def NoiseModel.corrupt (_ : NoiseModel) (_ : PyData α) :
    Except PyError (PyData α) :=
  .error .notImplementedError

/-- `NoiseModel.reshape`, lines 105-121: deep-copy the instance, set the
new shape and feature importance on the copy (the default
`range(0, shape[1])` raises `IndexError` on a short shape), then
re-validate shape and feature importance (but not probability).  The
second component is the state of the original instance after the call:
every assignment in the source targets the deep copy, so it is the
original, unchanged. -/
def NoiseModel.reshapeRun (m : NoiseModel) (shape : List Int)
    (feature_importance : List Int) :
    Except PyError NoiseModel × NoiseModel :=
  let fiOpt : Except PyError (List Int) :=
    if feature_importance = [] then
      match shape.get? 1 with
      | none => .error .indexError
      | some c => .ok (pyRange c)
    else .ok feature_importance
  match fiOpt with
  | .error e => (.error e, m)
  | .ok fi =>
    let ret : NoiseModel := { m with shape := shape, feature_importance := fi }
    if shape.length = 2 ∧ 0 < shape.getD 0 0 ∧ 0 < shape.getD 1 0 then
      if pySorted ret.feature_importance = pyRange (shape.getD 1 0) then
        (.ok ret, m)
      else (.error (.valueError ("Invalid feature_importance")), m)
    else (.error (.valueError ("Invalid shape")), m)

/-- The configuration invariants enforced by `NoiseModel.init` (the
spec's "valid configuration"). -/
def NoiseModel.Valid (m : NoiseModel) : Prop :=
  m.shape.length = 2 ∧ 0 < m.shape.getD 0 0 ∧ 0 < m.shape.getD 1 0 ∧
  0 ≤ m.probability ∧ m.probability ≤ 1 ∧
  pySorted m.feature_importance = pyRange (m.shape.getD 1 0)

instance (m : NoiseModel) : Decidable m.Valid := by
  unfold NoiseModel.Valid; infer_instance

/-! ### Helper lemmas about list reads and writes -/

lemma listGetD_set_self (g : List β) (i : Nat) (v d : β) (h : i < g.length) :
    (g.set i v).getD i d = v := by
  induction g generalizing i with
  | nil => simp at h
  | cons a as ih =>
    cases i with
    | zero => rfl
    | succ n => simpa using ih n (by simpa using h)

lemma listGetD_set_ne (g : List β) (i j : Nat) (v d : β) (h : i ≠ j) :
    (g.set i v).getD j d = g.getD j d := by
  induction g generalizing i j with
  | nil => rfl
  | cons a as ih =>
    cases i with
    | zero =>
      cases j with
      | zero => exact absurd rfl h
      | succ n => rfl
    | succ n =>
      cases j with
      | zero => rfl
      | succ n' => simpa using ih n n' (fun hc => h (by rw [hc]))

lemma listGetD_mem (l : List β) (k : Nat) (d : β) (h : k < l.length) :
    l.getD k d ∈ l := by
  induction l generalizing k with
  | nil => simp at h
  | cons a as ih =>
    cases k with
    | zero => exact List.mem_cons_self a as
    | succ n => exact List.mem_cons_of_mem a (ih n (by simpa using h))

lemma listGetD_get (l : List β) (k : Nat) (d : β) (h : k < l.length) :
    l.getD k d = l.get ⟨k, h⟩ := by
  induction l generalizing k with
  | nil => simp at h
  | cons a as ih =>
    cases k with
    | zero => rfl
    | succ n => simpa using ih n (by simpa using h)

lemma length_pySelect [Inhabited β] (l : List β) (idxs : List Nat) :
    (pySelect l idxs).length = idxs.length := by
  simp [pySelect]

lemma pySelect_getD [Inhabited β] (l : List β) (idxs : List Nat) (k : Nat)
    (h : k < idxs.length) :
    (pySelect l idxs).getD k default = l.getD (idxs.getD k 0) default := by
  induction idxs generalizing k with
  | nil => simp at h
  | cons i is ih =>
    cases k with
    | zero => rfl
    | succ n => simpa [pySelect] using ih n (by simpa using h)

lemma mem_pySelect [Inhabited β] (l : List β) (idxs : List Nat)
    (hidx : ∀ i ∈ idxs, i < l.length) : ∀ r ∈ pySelect l idxs, r ∈ l := by
  intro r hr
  rcases List.mem_map.mp hr with ⟨i, hi, rfl⟩
  exact listGetD_mem _ _ _ (hidx i hi)

lemma length_setRows (idxs : List Nat) (vals g : List β) :
    (setRows g idxs vals).length = g.length := by
  induction idxs generalizing vals g with
  | nil => cases vals <;> rfl
  | cons i is ih =>
    cases vals with
    | nil => rfl
    | cons v vs =>
      show (setRows (g.set i v) is vs).length = g.length
      rw [ih vs (g.set i v), List.length_set]

lemma setRows_getD_of_not_mem (idxs : List Nat) (vals g : List β) (j : Nat)
    (d : β) (h : j ∉ idxs) :
    (setRows g idxs vals).getD j d = g.getD j d := by
  induction idxs generalizing vals g with
  | nil => cases vals <;> rfl
  | cons i is ih =>
    cases vals with
    | nil => rfl
    | cons v vs =>
      have hji : j ≠ i := fun hc => h (hc ▸ List.mem_cons_self i is)
      have hjs : j ∉ is := fun hc => h (List.mem_cons_of_mem i hc)
      show (setRows (g.set i v) is vs).getD j d = g.getD j d
      rw [ih vs (g.set i v) hjs, listGetD_set_ne g i j v d (Ne.symm hji)]

lemma setRows_getD_sel (idxs : List Nat) (vals g : List β) (k : Nat) (d : β)
    (hnd : idxs.Nodup) (hk : k < idxs.length) (hkv : k < vals.length)
    (hin : ∀ i ∈ idxs, i < g.length) :
    (setRows g idxs vals).getD (idxs.getD k 0) d = vals.getD k d := by
  induction idxs generalizing vals g k with
  | nil => simp at hk
  | cons i is ih =>
    cases vals with
    | nil => simp at hkv
    | cons v vs =>
      cases k with
      | zero =>
        show (setRows (g.set i v) is vs).getD i d = v
        rw [setRows_getD_of_not_mem is vs _ i d (List.nodup_cons.mp hnd).1]
        exact listGetD_set_self g i v d (hin i (List.mem_cons_self i is))
      | succ n =>
        show (setRows (g.set i v) is vs).getD (is.getD n 0) d = vs.getD n d
        exact ih vs (g.set i v) n (List.nodup_cons.mp hnd).2
          (by simpa using hk) (by simpa using hkv)
          (fun i' hi' => by
            rw [List.length_set]; exact hin i' (List.mem_cons_of_mem i hi'))

lemma mem_setRows (idxs : List Nat) (vals g : List β) (r : β)
    (h : r ∈ setRows g idxs vals) : r ∈ g ∨ r ∈ vals := by
  induction idxs generalizing vals g with
  | nil => cases vals <;> exact .inl h
  | cons i is ih =>
    cases vals with
    | nil => exact .inl h
    | cons v vs =>
      rcases ih vs (g.set i v) h with hg | hv
      · rcases List.mem_or_eq_of_mem_set hg with h1 | h2
        · exact .inl h1
        · exact .inr (h2 ▸ List.mem_cons_self v vs)
      · exact .inr (List.mem_cons_of_mem v hv)

/-! ### Helper lemmas about `corruptRows` -/

lemma length_corruptRows [Inhabited α] (rows crows : List (List α))
    (tc cl : List Nat) (nr nc : Nat) :
    (corruptRows rows crows tc cl nr nc).length = nr := by
  unfold corruptRows
  rw [length_setRows, length_setRows, List.length_replicate]

lemma mem_corruptRows [Inhabited α] (rows crows : List (List α))
    (tc cl : List Nat) (nr nc : Nat) (r : List α)
    (h : r ∈ corruptRows rows crows tc cl nr nc) :
    r = List.replicate nc default ∨ r ∈ crows ∨ r ∈ pySelect rows cl := by
  unfold corruptRows at h
  rcases mem_setRows _ _ _ _ h with h1 | h2
  · rcases mem_setRows _ _ _ _ h1 with h3 | h4
    · exact .inl (List.eq_of_mem_replicate h3)
    · exact .inr (.inl h4)
  · exact .inr (.inr h2)

lemma corruptRows_getD_clean [Inhabited α] (rows crows : List (List α))
    (tc cl : List Nat) (nr nc : Nat) (hnd : cl.Nodup)
    (hin : ∀ i ∈ cl, i < nr) (j : Nat) (hj : j ∈ cl) :
    (corruptRows rows crows tc cl nr nc).getD j default
      = rows.getD j default := by
  obtain ⟨⟨k, hkl⟩, hkeq⟩ := List.mem_iff_get.mp hj
  have hj' : cl.getD k 0 = j := by rw [listGetD_get cl k 0 hkl, hkeq]
  unfold corruptRows
  rw [← hj']
  rw [setRows_getD_sel cl (pySelect rows cl) _ k default hnd hkl
    (by rw [length_pySelect]; exact hkl)
    (fun i hi => by
      rw [length_setRows, List.length_replicate]; exact hin i hi)]
  rw [pySelect_getD rows cl k hkl, hj']

lemma corruptRows_getD_tc [Inhabited α] (rows crows : List (List α))
    (tc cl : List Nat) (nr nc : Nat) (hnd : tc.Nodup)
    (hdisj : ∀ a ∈ tc, a ∉ cl) (hin : ∀ i ∈ tc, i < nr) (k : Nat)
    (hk : k < tc.length) (hkc : k < crows.length) :
    (corruptRows rows crows tc cl nr nc).getD (tc.getD k 0) default
      = crows.getD k default := by
  have hmem : tc.getD k 0 ∈ tc := listGetD_mem tc k 0 hk
  unfold corruptRows
  rw [setRows_getD_of_not_mem cl (pySelect rows cl) _ _ default (hdisj _ hmem)]
  exact setRows_getD_sel tc crows _ k default hnd hk hkc
    (fun i hi => by rw [List.length_replicate]; exact hin i hi)

/-! ### Helper lemmas about the sampling pass -/

lemma pyRound_nonneg_le (N : Nat) (p : ℚ) (hp0 : 0 ≤ p) (hp1 : p ≤ 1) :
    0 ≤ pyRound ((N : ℚ) * p) ∧ pyRound ((N : ℚ) * p) ≤ N := by
  have hnn : (0 : ℚ) ≤ (N : ℚ) * p := mul_nonneg (by positivity) hp0
  unfold pyRound
  rw [if_pos hnn]
  refine ⟨?_, ?_⟩
  · rw [Int.le_floor]
    push_cast
    linarith
  · have hle : (N : ℚ) * p ≤ (N : ℚ) := by
      calc (N : ℚ) * p ≤ (N : ℚ) * 1 :=
            mul_le_mul_of_nonneg_left hp1 (by positivity)
        _ = (N : ℚ) := mul_one _
    calc ⌊(N : ℚ) * p + 1/2⌋ ≤ ⌊(N : ℚ) + 1/2⌋ :=
          Int.floor_le_floor (by linarith)
      _ = (N : Int) + ⌊(1/2 : ℚ)⌋ := Int.floor_nat_add N (1/2 : ℚ)
      _ = N := by norm_num

lemma sampleSplit_fst_length (N : Nat) (p : ℚ) (sh : List Nat)
    (hlen : sh.length = N) (hp0 : 0 ≤ p) (hp1 : p ≤ 1) :
    (((sampleSplit N p sh).1).length : Int) = pyRound ((N : ℚ) * p) := by
  obtain ⟨h0, hN⟩ := pyRound_nonneg_le N p hp0 hp1
  simp only [sampleSplit]
  rw [List.length_take, hlen]
  have hle : (pyRound ((N : ℚ) * p)).toNat ≤ N := by omega
  rw [min_eq_left hle]
  omega

lemma sampleSplit_append (N : Nat) (p : ℚ) (sh : List Nat) :
    (sampleSplit N p sh).1 ++ (sampleSplit N p sh).2 = sh :=
  List.take_append_drop _ _

lemma sampleSplit_nodup_fst (N : Nat) (p : ℚ) (sh : List Nat)
    (hnd : sh.Nodup) : ((sampleSplit N p sh).1).Nodup :=
  hnd.sublist (List.take_sublist _ _)

lemma sampleSplit_nodup_snd (N : Nat) (p : ℚ) (sh : List Nat)
    (hnd : sh.Nodup) : ((sampleSplit N p sh).2).Nodup :=
  hnd.sublist (List.drop_sublist _ _)

lemma sampleSplit_disjoint (N : Nat) (p : ℚ) (sh : List Nat)
    (hnd : sh.Nodup) :
    ∀ a ∈ (sampleSplit N p sh).1, a ∉ (sampleSplit N p sh).2 :=
  List.disjoint_take_drop hnd (le_refl _)

lemma sampleSplit_mem_fst (N : Nat) (p : ℚ) (sh : List Nat) (a : Nat)
    (h : a ∈ (sampleSplit N p sh).1) : a ∈ sh :=
  List.mem_of_mem_take h

lemma sampleSplit_mem_snd (N : Nat) (p : ℚ) (sh : List Nat) (a : Nat)
    (h : a ∈ (sampleSplit N p sh).2) : a ∈ sh :=
  List.mem_of_mem_drop h

/-! ### Structural lemmas about `NoiseModel.applyRun` -/

lemma npShape_getD_toNat (m : NoiseModel) (X : PyData α)
    (hsh : PyData.npShape X = m.shape) :
    (m.shape.getD 0 0).toNat = X.nrows := by
  rw [← hsh]; rfl

lemma applyRun_snd [Inhabited α] (m : NoiseModel)
    (cf : PyData α → Except PyError (PyData α)) (sh : List Nat)
    (X : PyData α) (ic : Bool) (ti : α → α)
    (hsh : PyData.npShape X = m.shape) :
    (NoiseModel.applyRun m cf sh X ic ti).2
      = { m with
          argselect := some ((sampleSplit (m.shape.getD 0 0).toNat m.probability sh).1) } := by
  unfold NoiseModel.applyRun
  rw [if_neg (by simp [hsh])]
  cases X with
  | arr rows =>
    dsimp only
    split
    · rfl
    · rfl
    · split
      · rfl
      · rfl
  | df d =>
    dsimp only
    split
    · rfl
    · rfl
    · split
      · rfl
      · rfl

lemma applyRun_arr_inv [Inhabited α] (m : NoiseModel)
    (cf : PyData α → Except PyError (PyData α)) (sh : List Nat)
    (rows : List (List α)) (ic : Bool) (ti : α → α) (out orig : PyData α)
    (hok : (NoiseModel.applyRun m cf sh (.arr rows) ic ti).1 = .ok (out, orig)) :
    PyData.npShape (PyData.arr rows) = m.shape ∧ orig = .arr rows ∧
    ∃ crows : List (List α),
      cf (PyData.sub (.arr rows)
          ((sampleSplit (m.shape.getD 0 0).toNat m.probability sh).1))
        = .ok (.arr crows) ∧
      crows.length
        = ((sampleSplit (m.shape.getD 0 0).toNat m.probability sh).1).length ∧
      (∀ r ∈ crows, r.length = (PyData.arr rows).ncols) ∧
      out = .arr (if ic then
          (corruptRows rows crows
            ((sampleSplit (m.shape.getD 0 0).toNat m.probability sh).1)
            ((sampleSplit (m.shape.getD 0 0).toNat m.probability sh).2)
            (PyData.arr rows).nrows (PyData.arr rows).ncols).map
              (fun r => r.map ti)
        else corruptRows rows crows
            ((sampleSplit (m.shape.getD 0 0).toNat m.probability sh).1)
            ((sampleSplit (m.shape.getD 0 0).toNat m.probability sh).2)
            (PyData.arr rows).nrows (PyData.arr rows).ncols) := by
  unfold NoiseModel.applyRun at hok
  by_cases hsh : PyData.npShape (PyData.arr rows) = m.shape
  · rw [if_neg (by simp [hsh])] at hok
    dsimp only at hok
    split at hok
    · simp at hok
    · simp at hok
    · rename_i crows heq
      split at hok
      · rename_i hguard
        simp only [Except.ok.injEq, Prod.mk.injEq] at hok
        exact ⟨hsh, hok.2.symm, crows, heq, hguard.1, hguard.2, hok.1.symm⟩
      · simp at hok
  · rw [if_pos hsh] at hok
    simp at hok

lemma applyRun_df_inv [Inhabited α] (m : NoiseModel)
    (cf : PyData α → Except PyError (PyData α)) (sh : List Nat)
    (d : DataFrame α) (ic : Bool) (ti : α → α) (out orig : PyData α)
    (hok : (NoiseModel.applyRun m cf sh (.df d) ic ti).1 = .ok (out, orig)) :
    PyData.npShape (PyData.df d) = m.shape ∧ orig = .df d ∧
    ∃ cd : DataFrame α,
      cf (PyData.sub (.df d)
          ((sampleSplit (m.shape.getD 0 0).toNat m.probability sh).1))
        = .ok (.df cd) ∧
      cd.data.length
        = ((sampleSplit (m.shape.getD 0 0).toNat m.probability sh).1).length ∧
      (∀ r ∈ cd.data, r.length = (PyData.df d).ncols) ∧
      out = .df ⟨d.index, d.columns,
        corruptRows d.data cd.data
          ((sampleSplit (m.shape.getD 0 0).toNat m.probability sh).1)
          ((sampleSplit (m.shape.getD 0 0).toNat m.probability sh).2)
          (PyData.df d).nrows (PyData.df d).ncols⟩ := by
  unfold NoiseModel.applyRun at hok
  by_cases hsh : PyData.npShape (PyData.df d) = m.shape
  · rw [if_neg (by simp [hsh])] at hok
    dsimp only at hok
    split at hok
    · simp at hok
    · simp at hok
    · rename_i cd heq
      split at hok
      · rename_i hguard
        simp only [Except.ok.injEq, Prod.mk.injEq] at hok
        exact ⟨hsh, hok.2.symm, cd, heq, hguard.1, hguard.2, hok.1.symm⟩
      · simp at hok
  · rw [if_pos hsh] at hok
    simp at hok

lemma perm_facts (N : Nat) (p : ℚ) (sh : List Nat)
    (hperm : sh.Perm (List.range N)) :
    sh.Nodup ∧ sh.length = N ∧
    (∀ a ∈ (sampleSplit N p sh).1, a < N) ∧
    (∀ a ∈ (sampleSplit N p sh).2, a < N) := by
  have hnd : sh.Nodup := hperm.nodup_iff.mpr (List.nodup_range _)
  refine ⟨hnd, by rw [hperm.length_eq, List.length_range], ?_, ?_⟩
  · intro a ha
    exact List.mem_range.mp (hperm.mem_iff.mp (sampleSplit_mem_fst _ _ _ _ ha))
  · intro a ha
    exact List.mem_range.mp (hperm.mem_iff.mp (sampleSplit_mem_snd _ _ _ _ ha))

lemma applyRun_fields [Inhabited α] (m : NoiseModel)
    (cf : PyData α → Except PyError (PyData α)) (sh : List Nat)
    (X : PyData α) (ic : Bool) (ti : α → α) :
    (NoiseModel.applyRun m cf sh X ic ti).2.shape = m.shape ∧
    (NoiseModel.applyRun m cf sh X ic ti).2.probability = m.probability ∧
    (NoiseModel.applyRun m cf sh X ic ti).2.feature_importance
      = m.feature_importance ∧
    (NoiseModel.applyRun m cf sh X ic ti).2.one_cell_flag = m.one_cell_flag := by
  unfold NoiseModel.applyRun
  split
  · exact ⟨rfl, rfl, rfl, rfl⟩
  · cases X with
    | arr rows =>
      dsimp only
      split
      · exact ⟨rfl, rfl, rfl, rfl⟩
      · exact ⟨rfl, rfl, rfl, rfl⟩
      · split
        · exact ⟨rfl, rfl, rfl, rfl⟩
        · exact ⟨rfl, rfl, rfl, rfl⟩
    | df d =>
      dsimp only
      split
      · exact ⟨rfl, rfl, rfl, rfl⟩
      · exact ⟨rfl, rfl, rfl, rfl⟩
      · split
        · exact ⟨rfl, rfl, rfl, rfl⟩
        · exact ⟨rfl, rfl, rfl, rfl⟩

/-! ### Claim theorems -/

/-- Claim C7: for every input dataset whose `np.shape` does not equal
the model's configured `shape`, `apply` raises the shape-mismatch
`ValueError` before any sampling or mutation: the call returns the
error and the instance state is unchanged, so `argselect`
(`lastSampledIndices`) retains whatever value it had before the call,
and the input dataset is untouched (the embedding is pure, and the
error path reads nothing but the shapes). -/
theorem apply_shape_mismatch_fails [Inhabited α] (m : NoiseModel)
    (cf : PyData α → Except PyError (PyData α)) (sh : List Nat)
    (X : PyData α) (ic : Bool) (ti : α → α)
    (hne : PyData.npShape X ≠ m.shape) :
    NoiseModel.applyRun m cf sh X ic ti
      = (.error (.valueError ("The input does not match the shape of the Noise Model")), m) := by
  unfold NoiseModel.applyRun
  rw [if_pos hne]

/-- Witness for C7: a 1x1 array fed to a model configured for 2x2; the
previously recorded `argselect` value `some [5]` is retained. -/
theorem apply_shape_mismatch_fails_witness :
    NoiseModel.applyRun (α := Int) ⟨[2, 2], 0, [0, 1], false, some [5]⟩
        (fun d => .ok d) [0] (.arr [[7]]) false id
      = (.error (.valueError ("The input does not match the shape of the Noise Model")),
         ⟨[2, 2], 0, [0, 1], false, some [5]⟩) :=
  apply_shape_mismatch_fails _ _ _ _ _ _ (by decide)

/-- Claim C9: `apply` invokes `corrupt` unconditionally (the call
`self.corrupt(X[tocorrupt,:])` is evaluated even when the to-corrupt
set is empty), so on a base instance whose `corrupt` is not overridden,
any `apply` call on a matching-shape dataset raises
`NotImplementedError` — in particular with probability 0. -/
theorem apply_base_corrupt_raises [Inhabited α] (m : NoiseModel)
    (sh : List Nat) (X : PyData α) (ic : Bool) (ti : α → α)
    (hsh : PyData.npShape X = m.shape) :
    (NoiseModel.applyRun m (m.corrupt) sh X ic ti).1
      = .error .notImplementedError := by
  unfold NoiseModel.applyRun
  rw [if_neg (by simp [hsh])]
  cases X <;> rfl

/-- Witness for C9: probability 0, matching 1x1 array, base `corrupt`. -/
theorem apply_base_corrupt_raises_witness :
    (NoiseModel.applyRun (α := Int) ⟨[1, 1], 0, [0], false, none⟩
        ((⟨[1, 1], 0, [0], false, none⟩ : NoiseModel).corrupt) [0]
        (.arr [[5]]) false id).1
      = .error .notImplementedError :=
  apply_base_corrupt_raises _ _ _ _ _ (by decide)

/-- Claim C10: `apply` assigns `self.argselect` (the spec's
`lastSampledIndices`) right after sampling and before invoking
`corrupt`; hence when `corrupt` raises, the error propagates but the
returned instance state already holds the newly sampled to-corrupt
indices. -/
theorem apply_argselect_updated_on_corrupt_failure [Inhabited α]
    (m : NoiseModel) (e : PyError) (sh : List Nat) (X : PyData α)
    (ic : Bool) (ti : α → α) (hsh : PyData.npShape X = m.shape) :
    NoiseModel.applyRun m (fun _ => .error e) sh X ic ti
      = (.error e,
         { m with
           argselect := some ((sampleSplit (m.shape.getD 0 0).toNat m.probability sh).1) }) := by
  unfold NoiseModel.applyRun
  rw [if_neg (by simp [hsh])]
  cases X <;> rfl

/-- Witness for C10: probability 1 on a 1x1 array with a failing
`corrupt`; `argselect` goes from `none` to `some [0]` although the call
raises. -/
theorem apply_argselect_updated_on_corrupt_failure_witness :
    NoiseModel.applyRun (α := Int) ⟨[1, 1], 1, [0], false, none⟩
        (fun _ => .error .notImplementedError) [0] (.arr [[3]]) false id
      = (.error .notImplementedError, ⟨[1, 1], 1, [0], false, some [0]⟩) := by
  rw [apply_argselect_updated_on_corrupt_failure _ _ _ _ _ _ (by decide)]
  norm_num [sampleSplit, pyRound]

/-- Claim C2: in every `apply` call on a dataset matching the model's
shape with N rows, the to-corrupt list and the clean list computed by
the sampling pass (the head and tail of the shuffled `range(0, N)`)
are disjoint and together cover exactly the indices `[0, N)`; the
to-corrupt list is what `apply` records in `argselect`. -/
theorem apply_partition [Inhabited α] (m : NoiseModel)
    (cf : PyData α → Except PyError (PyData α)) (sh : List Nat)
    (X : PyData α) (ic : Bool) (ti : α → α)
    (hsh : PyData.npShape X = m.shape)
    (hperm : sh.Perm (List.range X.nrows)) :
    (NoiseModel.applyRun m cf sh X ic ti).2.argselect
        = some ((sampleSplit X.nrows m.probability sh).1) ∧
    (∀ a ∈ (sampleSplit X.nrows m.probability sh).1,
        a ∉ (sampleSplit X.nrows m.probability sh).2) ∧
    (∀ j : Nat,
        (j ∈ (sampleSplit X.nrows m.probability sh).1 ∨
          j ∈ (sampleSplit X.nrows m.probability sh).2) ↔ j < X.nrows) := by
  have hnd : sh.Nodup := hperm.nodup_iff.mpr (List.nodup_range _)
  refine ⟨?_, sampleSplit_disjoint _ _ _ hnd, ?_⟩
  · rw [applyRun_snd m cf sh X ic ti hsh, npShape_getD_toNat m X hsh]
  · intro j
    constructor
    · intro hj
      rcases hj with hj | hj
      · exact List.mem_range.mp (hperm.mem_iff.mp (sampleSplit_mem_fst _ _ _ _ hj))
      · exact List.mem_range.mp (hperm.mem_iff.mp (sampleSplit_mem_snd _ _ _ _ hj))
    · intro hj
      have hmem : j ∈ sh := hperm.mem_iff.mpr (List.mem_range.mpr hj)
      rw [← sampleSplit_append X.nrows m.probability sh] at hmem
      exact List.mem_append.mp hmem

/-- Witness for C2 on a concrete 2x2 call with probability 1/2. -/
theorem apply_partition_witness :
    ((NoiseModel.applyRun (α := Int) ⟨[2, 2], 1/2, [0, 1], false, none⟩
        (fun d => .ok d) [1, 0] (.arr [[1, 2], [3, 4]]) false id).2.argselect
      = some ((sampleSplit 2 (1/2) [1, 0]).1)) ∧
    (∀ a ∈ (sampleSplit 2 (1/2 : ℚ) [1, 0]).1,
        a ∉ (sampleSplit 2 (1/2 : ℚ) [1, 0]).2) ∧
    (∀ j : Nat,
        (j ∈ (sampleSplit 2 (1/2 : ℚ) [1, 0]).1 ∨
          j ∈ (sampleSplit 2 (1/2 : ℚ) [1, 0]).2) ↔ j < 2) :=
  apply_partition _ _ _ _ _ _ (by decide) (by decide)

/-- Claim C3: on a matching-shape dataset with N rows, the list of
sampled to-corrupt indices recorded in `argselect` has length
`round(N * probability)` (Python 2 `round`, half away from zero);
probability 0 selects no rows and probability 1 selects every row
of `[0, N)`. -/
theorem apply_sample_count [Inhabited α] (m : NoiseModel)
    (cf : PyData α → Except PyError (PyData α)) (sh : List Nat)
    (X : PyData α) (ic : Bool) (ti : α → α)
    (hsh : PyData.npShape X = m.shape)
    (hperm : sh.Perm (List.range X.nrows))
    (hp0 : 0 ≤ m.probability) (hp1 : m.probability ≤ 1) :
    (NoiseModel.applyRun m cf sh X ic ti).2.argselect
        = some ((sampleSplit X.nrows m.probability sh).1) ∧
    ((((sampleSplit X.nrows m.probability sh).1).length : Int)
        = pyRound ((X.nrows : ℚ) * m.probability)) ∧
    (m.probability = 0 → (sampleSplit X.nrows m.probability sh).1 = []) ∧
    (m.probability = 1 →
      ∀ j : Nat, j ∈ (sampleSplit X.nrows m.probability sh).1 ↔ j < X.nrows) := by
  have hlen : sh.length = X.nrows := by rw [hperm.length_eq, List.length_range]
  refine ⟨?_, sampleSplit_fst_length _ _ _ hlen hp0 hp1, ?_, ?_⟩
  · rw [applyRun_snd m cf sh X ic ti hsh, npShape_getD_toNat m X hsh]
  · intro hp
    rw [hp]
    norm_num [sampleSplit, pyRound]
  · intro hp j
    rw [hp]
    have hN : (pyRound ((X.nrows : ℚ) * 1)).toNat = X.nrows := by
      unfold pyRound
      rw [mul_one, if_pos (by positivity), Int.floor_nat_add]
      norm_num
    have htake : sh.take X.nrows = sh := by
      rw [← hlen]
      exact List.take_length sh
    simp only [sampleSplit, hN, htake]
    exact ⟨fun h => List.mem_range.mp (hperm.mem_iff.mp h),
      fun h => hperm.mem_iff.mpr (List.mem_range.mpr h)⟩

/-- Witness for C3 on a concrete 2x2 call with probability 1/2
(sample count round(2 * 0.5) = 1). -/
theorem apply_sample_count_witness :
    ((NoiseModel.applyRun (α := Int) ⟨[2, 2], 1/2, [0, 1], false, none⟩
        (fun d => .ok d) [1, 0] (.arr [[1, 2], [3, 4]]) false id).2.argselect
      = some ((sampleSplit 2 (1/2) [1, 0]).1)) ∧
    ((((sampleSplit 2 (1/2 : ℚ) [1, 0]).1).length : Int)
        = pyRound ((2 : ℚ) * (1/2))) ∧
    ((1/2 : ℚ) = 0 → (sampleSplit 2 (1/2 : ℚ) [1, 0]).1 = []) ∧
    ((1/2 : ℚ) = 1 →
      ∀ j : Nat, j ∈ (sampleSplit 2 (1/2 : ℚ) [1, 0]).1 ↔ j < 2) :=
  apply_sample_count _ _ _ _ _ _ (by decide) (by decide) (by norm_num) (by norm_num)

/-- Claim C8: `reshape` deep-copies the instance and mutates only the
copy — every assignment in the source targets the deep copy, so the
original comes out of the call unchanged (second component); on success
the copy carries the original's `probability` and `one_cell_flag` (and
`argselect`) and holds the new shape; and a later `apply` call on the
copy rewrites only the copy's own `argselect`, never the configuration
fields, so it cannot influence the original (which, being a deep copy's
source, shares no state with the copy). -/
theorem reshape_independent (m : NoiseModel) (ns nfi : List Int)
    (m2 : NoiseModel)
    (hok : (NoiseModel.reshapeRun m ns nfi).1 = .ok m2) :
    (NoiseModel.reshapeRun m ns nfi).2 = m ∧
    m2.probability = m.probability ∧
    m2.one_cell_flag = m.one_cell_flag ∧
    m2.argselect = m.argselect ∧
    m2.shape = ns ∧
    (∀ (α : Type) [Inhabited α] (cf : PyData α → Except PyError (PyData α))
        (sh : List Nat) (X : PyData α) (ic : Bool) (ti : α → α),
      (NoiseModel.applyRun m2 cf sh X ic ti).2.shape = m2.shape ∧
      (NoiseModel.applyRun m2 cf sh X ic ti).2.probability = m2.probability ∧
      (NoiseModel.applyRun m2 cf sh X ic ti).2.feature_importance
        = m2.feature_importance) := by
  have hsnd : (NoiseModel.reshapeRun m ns nfi).2 = m := by
    unfold NoiseModel.reshapeRun
    dsimp only
    split
    · rfl
    · split
      · split
        · rfl
        · rfl
      · rfl
  refine ⟨hsnd, ?_⟩
  unfold NoiseModel.reshapeRun at hok
  dsimp only at hok
  split at hok
  · simp at hok
  · split at hok
    · split at hok
      · simp only [Except.ok.injEq] at hok
        subst hok
        refine ⟨rfl, rfl, rfl, rfl, ?_⟩
        intro α _ cf sh X ic ti
        exact ⟨(applyRun_fields _ cf sh X ic ti).1,
          (applyRun_fields _ cf sh X ic ti).2.1,
          (applyRun_fields _ cf sh X ic ti).2.2.1⟩
      · simp at hok
    · simp at hok

/-- Witness for C8: reshape a configured 2x2 model (with a recorded
sample) to 3x3 with the default feature importance. -/
theorem reshape_independent_witness :
    ((NoiseModel.reshapeRun ⟨[2, 2], 1/2, [1, 0], true, some [3]⟩ [3, 3] []).2
      = ⟨[2, 2], 1/2, [1, 0], true, some [3]⟩) ∧
    ((⟨[3, 3], 1/2, [0, 1, 2], true, some [3]⟩ : NoiseModel).probability
      = (⟨[2, 2], 1/2, [1, 0], true, some [3]⟩ : NoiseModel).probability) ∧
    ((⟨[3, 3], 1/2, [0, 1, 2], true, some [3]⟩ : NoiseModel).one_cell_flag
      = (⟨[2, 2], 1/2, [1, 0], true, some [3]⟩ : NoiseModel).one_cell_flag) ∧
    ((⟨[3, 3], 1/2, [0, 1, 2], true, some [3]⟩ : NoiseModel).argselect
      = (⟨[2, 2], 1/2, [1, 0], true, some [3]⟩ : NoiseModel).argselect) ∧
    ((⟨[3, 3], 1/2, [0, 1, 2], true, some [3]⟩ : NoiseModel).shape = [3, 3]) ∧
    (∀ (α : Type) [Inhabited α] (cf : PyData α → Except PyError (PyData α))
        (sh : List Nat) (X : PyData α) (ic : Bool) (ti : α → α),
      (NoiseModel.applyRun (⟨[3, 3], 1/2, [0, 1, 2], true, some [3]⟩ : NoiseModel)
          cf sh X ic ti).2.shape
        = (⟨[3, 3], 1/2, [0, 1, 2], true, some [3]⟩ : NoiseModel).shape ∧
      (NoiseModel.applyRun (⟨[3, 3], 1/2, [0, 1, 2], true, some [3]⟩ : NoiseModel)
          cf sh X ic ti).2.probability
        = (⟨[3, 3], 1/2, [0, 1, 2], true, some [3]⟩ : NoiseModel).probability ∧
      (NoiseModel.applyRun (⟨[3, 3], 1/2, [0, 1, 2], true, some [3]⟩ : NoiseModel)
          cf sh X ic ti).2.feature_importance
        = (⟨[3, 3], 1/2, [0, 1, 2], true, some [3]⟩ : NoiseModel).feature_importance) :=
  reshape_independent ⟨[2, 2], 1/2, [1, 0], true, some [3]⟩ [3, 3] []
    ⟨[3, 3], 1/2, [0, 1, 2], true, some [3]⟩ rfl

/-- Claim C6 counterexample: a shape with fewer than two entries,
passed with the default (empty) feature importance, makes `__init__`
evaluate `range(0, shape[1])` before any validation, so it raises
`IndexError` — not the `ConfigurationError`/`ValueError: invalid shape`
the claim predicts for every non-2-element shape. -/
theorem init_short_shape_raises_index_error :
    NoiseModel.init [5] 0 [] false = .error .indexError ∧
    NoiseModel.init [5] 0 [] false ≠ .error (.valueError ("Invalid shape")) := by
  constructor
  · rfl
  · intro h
    rw [show NoiseModel.init [5] 0 [] false = .error .indexError from rfl] at h
    simp at h

/-- Claim C6 (amended): validation runs in order and fails fast —
whenever the default-feature-importance computation does not itself
blow up first (i.e. the shape has at least two entries, or a nonempty
feature importance is passed), any shape that is not a 2-element
positive pair yields `ValueError: Invalid shape` regardless of the
probability and feature-importance arguments (so before those checks);
and the claim's concrete cases all raise exactly as stated. -/
theorem init_validation_order :
    (∀ (shape : List Int) (p : ℚ) (fi : List Int) (f : Bool),
        (2 ≤ shape.length ∨ fi ≠ []) →
        ¬(shape.length = 2 ∧ 0 < shape.getD 0 0 ∧ 0 < shape.getD 1 0) →
        NoiseModel.init shape p fi f = .error (.valueError ("Invalid shape"))) ∧
    NoiseModel.init [0, 5] 0 [] false = .error (.valueError ("Invalid shape")) ∧
    NoiseModel.init [5, -1] 0 [] false = .error (.valueError ("Invalid shape")) ∧
    NoiseModel.init [1, 1] (-1/10) [] false
      = .error (.valueError ("Invalid probability")) ∧
    NoiseModel.init [1, 1] (11/10) [] false
      = .error (.valueError ("Invalid probability")) ∧
    NoiseModel.init [1, 3] 0 [0, 0, 2] false
      = .error (.valueError ("Invalid feature_importance")) := by
  refine ⟨?_, rfl, rfl, ?_, ?_, by decide⟩
  · intro shape p fi f hor hbad
    unfold NoiseModel.init
    dsimp only
    by_cases hfi : fi = []
    · have h2 : 2 ≤ shape.length := by
        rcases hor with h | h
        · exact h
        · exact absurd hfi h
      have h1lt : 1 < shape.length := by omega
      obtain ⟨c, hc⟩ : ∃ c, shape.get? 1 = some c :=
        ⟨shape.get ⟨1, h1lt⟩, List.get?_eq_get h1lt⟩
      rw [if_pos hfi, hc]
      dsimp only
      rw [if_neg hbad]
    · rw [if_neg hfi]
      dsimp only
      rw [if_neg hbad]
  · norm_num [NoiseModel.init]
  · norm_num [NoiseModel.init]

/-- Witness for C6 (amended) at a 3-element shape: the general
invalid-shape branch fires before the probability check even though the
probability 7 is also out of range. -/
theorem init_validation_order_witness :
    NoiseModel.init [5, 5, 5] 7 [] false
      = .error (.valueError ("Invalid shape")) :=
  init_validation_order.1 [5, 5, 5] 7 [] false (by decide) (by decide)

lemma corruptRows_row_lengths [Inhabited α] (rows crows : List (List α))
    (tc cl : List Nat) (nr nc : Nat)
    (hrows : ∀ r ∈ rows, r.length = nc)
    (hcrows : ∀ r ∈ crows, r.length = nc)
    (hcl : ∀ i ∈ cl, i < rows.length) :
    ∀ r ∈ corruptRows rows crows tc cl nr nc, r.length = nc := by
  intro r hr
  rcases mem_corruptRows rows crows tc cl nr nc r hr with h1 | h2 | h3
  · rw [h1, List.length_replicate]
  · exact hcrows r h2
  · exact hrows r (mem_pySelect rows cl hcl r h3)

lemma arr_ncols (L : List (List α)) (nc : Nat)
    (h : ∀ r ∈ L, r.length = nc) (hnil : L = [] → nc = 0) :
    (PyData.arr L).ncols = nc := by
  cases L with
  | nil => exact (hnil rfl).symm
  | cons r L' => simpa [PyData.ncols] using h r (List.mem_cons_self r L')

/-- Claim C1: whenever `apply` returns on a valid model (it returns
only when the input's `np.shape` equals the configured shape), the
corrupted output has the same shape, row count and column count as the
input, positional row/column order is preserved by construction
(rows are written back at their original indices — claims C4/C5 state
the per-row content), a DataFrame keeps the input's row and column
labels, the array/DataFrame kind is preserved, and the returned
original is the untouched input dataset. -/
theorem apply_shape_preserved [Inhabited α] (m : NoiseModel)
    (cf : PyData α → Except PyError (PyData α)) (sh : List Nat)
    (X : PyData α) (ic : Bool) (ti : α → α) (out orig : PyData α)
    (hm : m.Valid) (hwf : X.WF)
    (hperm : sh.Perm (List.range X.nrows))
    (hok : (NoiseModel.applyRun m cf sh X ic ti).1 = .ok (out, orig)) :
    PyData.npShape out = PyData.npShape X ∧ out.nrows = X.nrows ∧
    out.ncols = X.ncols ∧ out.WF ∧ orig = X ∧
    (∀ d, X = .df d →
      ∃ d2, out = .df d2 ∧ d2.index = d.index ∧ d2.columns = d.columns) := by
  cases X with
  | arr rows =>
    obtain ⟨hsh, horig, crows, hcf, hclen, hcw, hout⟩ :=
      applyRun_arr_inv m cf sh rows ic ti out orig hok
    have hN : (m.shape.getD 0 0).toNat = (PyData.arr rows).nrows :=
      npShape_getD_toNat m _ hsh
    rw [hN] at hout
    obtain ⟨hnd, hshlen, htb, hcb⟩ :=
      perm_facts (PyData.arr rows).nrows m.probability sh hperm
    subst hout
    subst horig
    have hL0len :
        (corruptRows rows crows
          ((sampleSplit (PyData.arr rows).nrows m.probability sh).1)
          ((sampleSplit (PyData.arr rows).nrows m.probability sh).2)
          (PyData.arr rows).nrows (PyData.arr rows).ncols).length
          = rows.length :=
      length_corruptRows _ _ _ _ _ _
    have hL0rows :
        ∀ r ∈ corruptRows rows crows
          ((sampleSplit (PyData.arr rows).nrows m.probability sh).1)
          ((sampleSplit (PyData.arr rows).nrows m.probability sh).2)
          (PyData.arr rows).nrows (PyData.arr rows).ncols,
          r.length = (PyData.arr rows).ncols :=
      corruptRows_row_lengths _ _ _ _ _ _ hwf.2 hcw hcb
    have hLlen :
        (if ic then
            (corruptRows rows crows
              ((sampleSplit (PyData.arr rows).nrows m.probability sh).1)
              ((sampleSplit (PyData.arr rows).nrows m.probability sh).2)
              (PyData.arr rows).nrows (PyData.arr rows).ncols).map
                (fun r => r.map ti)
          else corruptRows rows crows
              ((sampleSplit (PyData.arr rows).nrows m.probability sh).1)
              ((sampleSplit (PyData.arr rows).nrows m.probability sh).2)
              (PyData.arr rows).nrows (PyData.arr rows).ncols).length
          = rows.length := by
      cases ic with
      | false => simpa using hL0len
      | true => simpa using hL0len
    have hLrows :
        ∀ r ∈ (if ic then
            (corruptRows rows crows
              ((sampleSplit (PyData.arr rows).nrows m.probability sh).1)
              ((sampleSplit (PyData.arr rows).nrows m.probability sh).2)
              (PyData.arr rows).nrows (PyData.arr rows).ncols).map
                (fun r => r.map ti)
          else corruptRows rows crows
              ((sampleSplit (PyData.arr rows).nrows m.probability sh).1)
              ((sampleSplit (PyData.arr rows).nrows m.probability sh).2)
              (PyData.arr rows).nrows (PyData.arr rows).ncols),
          r.length = (PyData.arr rows).ncols := by
      cases ic with
      | false => simpa using hL0rows
      | true =>
        intro r hr
        simp only [if_pos rfl] at hr
        obtain ⟨r0, hr0, rfl⟩ := List.mem_map.mp hr
        rw [List.length_map]
        exact hL0rows r0 hr0
    have hnr :
        (PyData.arr (if ic then
            (corruptRows rows crows
              ((sampleSplit (PyData.arr rows).nrows m.probability sh).1)
              ((sampleSplit (PyData.arr rows).nrows m.probability sh).2)
              (PyData.arr rows).nrows (PyData.arr rows).ncols).map
                (fun r => r.map ti)
          else corruptRows rows crows
              ((sampleSplit (PyData.arr rows).nrows m.probability sh).1)
              ((sampleSplit (PyData.arr rows).nrows m.probability sh).2)
              (PyData.arr rows).nrows (PyData.arr rows).ncols)).nrows
          = (PyData.arr rows).nrows := hLlen
    have hnc :
        (PyData.arr (if ic then
            (corruptRows rows crows
              ((sampleSplit (PyData.arr rows).nrows m.probability sh).1)
              ((sampleSplit (PyData.arr rows).nrows m.probability sh).2)
              (PyData.arr rows).nrows (PyData.arr rows).ncols).map
                (fun r => r.map ti)
          else corruptRows rows crows
              ((sampleSplit (PyData.arr rows).nrows m.probability sh).1)
              ((sampleSplit (PyData.arr rows).nrows m.probability sh).2)
              (PyData.arr rows).nrows (PyData.arr rows).ncols)).ncols
          = (PyData.arr rows).ncols := by
      refine arr_ncols _ _ hLrows ?_
      intro hLnil
      have h0 : rows.length = 0 := by rw [← hLlen, hLnil]; rfl
      have hrownil : rows = [] := List.length_eq_zero.mp h0
      subst hrownil
      rfl
    refine ⟨?_, hnr, hnc, ⟨rfl, ?_⟩, rfl, ?_⟩
    · simp only [PyData.npShape, hnr, hnc]
    · intro r hr
      rw [hnc]
      exact hLrows r hr
    · intro d h
      simp at h
  | df d =>
    obtain ⟨hsh, horig, cd, hcf, hclen, hcw, hout⟩ :=
      applyRun_df_inv m cf sh d ic ti out orig hok
    have hN : (m.shape.getD 0 0).toNat = (PyData.df d).nrows :=
      npShape_getD_toNat m _ hsh
    rw [hN] at hout
    obtain ⟨hnd, hshlen, htb, hcb⟩ :=
      perm_facts (PyData.df d).nrows m.probability sh hperm
    subst hout
    subst horig
    have hL0len :
        (corruptRows d.data cd.data
          ((sampleSplit (PyData.df d).nrows m.probability sh).1)
          ((sampleSplit (PyData.df d).nrows m.probability sh).2)
          (PyData.df d).nrows (PyData.df d).ncols).length
          = d.index.length :=
      length_corruptRows _ _ _ _ _ _
    have hL0rows :
        ∀ r ∈ corruptRows d.data cd.data
          ((sampleSplit (PyData.df d).nrows m.probability sh).1)
          ((sampleSplit (PyData.df d).nrows m.probability sh).2)
          (PyData.df d).nrows (PyData.df d).ncols,
          r.length = (PyData.df d).ncols := by
      refine corruptRows_row_lengths _ _ _ _ _ _ hwf.2 hcw ?_
      intro i hi
      have h2 : i < d.index.length := hcb i hi
      have h1 : d.data.length = d.index.length := hwf.1
      omega
    refine ⟨rfl, rfl, rfl, ⟨hL0len, hL0rows⟩, rfl, ?_⟩
    · intro d' h
      injection h with h'
      subst h'
      exact ⟨_, rfl, rfl, rfl⟩

/-- Witness for C1: a 2x2 array, probability 1/2, a corrupt stub that
zeroes the sampled row; shuffle outcome [1, 0]. -/
theorem apply_shape_preserved_witness :
    PyData.npShape (PyData.arr (α := Int) [[1, 2], [0, 0]])
        = PyData.npShape (PyData.arr (α := Int) [[1, 2], [3, 4]]) ∧
    (PyData.arr (α := Int) [[1, 2], [0, 0]]).nrows
        = (PyData.arr (α := Int) [[1, 2], [3, 4]]).nrows ∧
    (PyData.arr (α := Int) [[1, 2], [0, 0]]).ncols
        = (PyData.arr (α := Int) [[1, 2], [3, 4]]).ncols ∧
    (PyData.arr (α := Int) [[1, 2], [0, 0]]).WF ∧
    (PyData.arr (α := Int) [[1, 2], [3, 4]])
        = (PyData.arr (α := Int) [[1, 2], [3, 4]]) ∧
    (∀ d, (PyData.arr (α := Int) [[1, 2], [3, 4]]) = .df d →
      ∃ d2, (PyData.arr (α := Int) [[1, 2], [0, 0]]) = .df d2 ∧
        d2.index = d.index ∧ d2.columns = d.columns) :=
  apply_shape_preserved ⟨[2, 2], 1/2, [0, 1], false, none⟩
    (fun _ => .ok (.arr [[0, 0]])) [1, 0] (.arr [[1, 2], [3, 4]]) false id
    (.arr [[1, 2], [0, 0]]) (.arr [[1, 2], [3, 4]])
    ⟨by decide, by decide, by decide, by norm_num, by norm_num, by decide⟩
    (by decide) (by decide)
    (by
      have hss : sampleSplit 2 (2⁻¹ : ℚ) [1, 0] = ([1], [0]) := by
        norm_num [sampleSplit, pyRound]
      simp [NoiseModel.applyRun, hss, PyData.sub, pySelect, corruptRows,
        setRows, PyData.npShape, PyData.nrows, PyData.ncols])

/-- Claim C4 counterexample: with `int_cast` requested on a numeric
array, the final `astype(np.int)` also rewrites the clean rows, so a
clean row (row 0 here, with probability 0 nothing is sampled) comes
back changed: the input row is [3/2] but the output row is [1]. -/
theorem apply_clean_rows_cast_cex :
    (NoiseModel.applyRun (α := ℚ) ⟨[1, 1], 0, [0], false, none⟩
        (fun d => .ok d) [0] (.arr [[3/2]]) true (fun q => (⌊q⌋ : ℚ))).1
      = .ok (.arr [[1]], .arr [[3/2]]) ∧
    (0 : Nat) ∈ (sampleSplit (PyData.arr (α := ℚ) [[3/2]]).nrows 0 [0]).2 ∧
    (PyData.arr (α := ℚ) [[1]]).rows.getD 0 default
      ≠ (PyData.arr (α := ℚ) [[3/2]]).rows.getD 0 default := by
  refine ⟨?_, ?_, ?_⟩
  · have hss : sampleSplit 1 (0 : ℚ) [0] = ([], [0]) := by
      norm_num [sampleSplit, pyRound]
    norm_num [NoiseModel.applyRun, hss, PyData.sub, pySelect, corruptRows,
      setRows, PyData.npShape, PyData.nrows, PyData.ncols]
  · norm_num [sampleSplit, pyRound, PyData.nrows]
  · norm_num [PyData.rows]

/-- Claim C4 (amended): with `castToInt` false (the Python default), or
on a DataFrame input (the source skips the cast there), every row whose
index is in the clean list is copied verbatim from the input to the
same row position of the corrupted output.  (With `castToInt` true on a
numeric array the clean rows are additionally passed through the
integer cast, so the claim's unconditional form fails.) -/
theorem apply_clean_rows_unchanged [Inhabited α] (m : NoiseModel)
    (cf : PyData α → Except PyError (PyData α)) (sh : List Nat)
    (X : PyData α) (ic : Bool) (ti : α → α) (out orig : PyData α)
    (hwf : X.WF) (hperm : sh.Perm (List.range X.nrows))
    (hic : ic = false ∨ ∃ d, X = .df d)
    (hok : (NoiseModel.applyRun m cf sh X ic ti).1 = .ok (out, orig))
    (j : Nat) (hj : j ∈ (sampleSplit X.nrows m.probability sh).2) :
    out.rows.getD j default = X.rows.getD j default := by
  cases X with
  | arr rows =>
    have hicf : ic = false := by
      rcases hic with h | ⟨d, hd⟩
      · exact h
      · simp at hd
    subst hicf
    obtain ⟨hsh, horig, crows, hcf, hclen, hcw, hout⟩ :=
      applyRun_arr_inv m cf sh rows false ti out orig hok
    rw [npShape_getD_toNat m _ hsh] at hout
    subst hout
    obtain ⟨hnd, hshlen, htb, hcb⟩ :=
      perm_facts (PyData.arr rows).nrows m.probability sh hperm
    exact corruptRows_getD_clean rows crows _ _ _ _
      (sampleSplit_nodup_snd _ _ _ hnd) hcb j hj
  | df d =>
    obtain ⟨hsh, horig, cd, hcf, hclen, hcw, hout⟩ :=
      applyRun_df_inv m cf sh d ic ti out orig hok
    rw [npShape_getD_toNat m _ hsh] at hout
    subst hout
    obtain ⟨hnd, hshlen, htb, hcb⟩ :=
      perm_facts (PyData.df d).nrows m.probability sh hperm
    exact corruptRows_getD_clean d.data cd.data _ _ _ _
      (sampleSplit_nodup_snd _ _ _ hnd) hcb j hj

/-- Witness for C4 (amended) at the concrete 2x2 call: clean row 0 of
the output equals input row 0. -/
theorem apply_clean_rows_unchanged_witness :
    (PyData.arr (α := Int) [[1, 2], [0, 0]]).rows.getD 0 default
      = (PyData.arr (α := Int) [[1, 2], [3, 4]]).rows.getD 0 default :=
  apply_clean_rows_unchanged ⟨[2, 2], 1/2, [0, 1], false, none⟩
    (fun _ => .ok (.arr [[0, 0]])) [1, 0] (.arr [[1, 2], [3, 4]]) false id
    (.arr [[1, 2], [0, 0]]) (.arr [[1, 2], [3, 4]])
    (by decide) (by decide) (.inl rfl)
    (by
      have hss : sampleSplit 2 (2⁻¹ : ℚ) [1, 0] = ([1], [0]) := by
        norm_num [sampleSplit, pyRound]
      simp [NoiseModel.applyRun, hss, PyData.sub, pySelect, corruptRows,
        setRows, PyData.npShape, PyData.nrows, PyData.ncols])
    0 (by norm_num [sampleSplit, pyRound, PyData.nrows])

/-- Claim C5 counterexample: with `int_cast` requested, the written-back
rows are further rewritten by `astype(np.int)`, so the output row at
the sampled index ([1]) differs from the row `corrupt` returned
([3/2]). -/
theorem apply_corrupt_rows_cast_cex :
    (NoiseModel.applyRun (α := ℚ) ⟨[1, 1], 1, [0], false, none⟩
        (fun _ => .ok (.arr [[3/2]])) [0] (.arr [[3/2]]) true
        (fun q => (⌊q⌋ : ℚ))).1
      = .ok (.arr [[1]], .arr [[3/2]]) ∧
    (0 : Nat) ∈ (sampleSplit (PyData.arr (α := ℚ) [[3/2]]).nrows 1 [0]).1 ∧
    (PyData.arr (α := ℚ) [[1]]).rows.getD 0 default
      ≠ (PyData.arr (α := ℚ) [[3/2]]).rows.getD 0 default := by
  refine ⟨?_, ?_, ?_⟩
  · have hss : sampleSplit 1 (1 : ℚ) [0] = ([0], []) := by
      norm_num [sampleSplit, pyRound]
    norm_num [NoiseModel.applyRun, hss, PyData.sub, pySelect, corruptRows,
      setRows, PyData.npShape, PyData.nrows, PyData.ncols]
  · norm_num [sampleSplit, pyRound, PyData.nrows]
  · norm_num [PyData.rows]

/-- Claim C5 (amended): with `castToInt` false (the Python default), or
on a DataFrame input, the rows at the sampled to-corrupt indices of the
output are exactly the rows returned by the `corrupt` call on the
sub-dataset of the sampled rows (taken in sample order, labels carried
along for a DataFrame), the k-th result row landing at the k-th sampled
index.  (With `castToInt` true on a numeric array the written-back rows
are further rewritten by the cast.) -/
theorem apply_corrupt_rows_written_back [Inhabited α] (m : NoiseModel)
    (cf : PyData α → Except PyError (PyData α)) (sh : List Nat)
    (X : PyData α) (ic : Bool) (ti : α → α) (out orig : PyData α)
    (hwf : X.WF) (hperm : sh.Perm (List.range X.nrows))
    (hic : ic = false ∨ ∃ d, X = .df d)
    (hok : (NoiseModel.applyRun m cf sh X ic ti).1 = .ok (out, orig)) :
    ∃ res : PyData α,
      cf (X.sub ((sampleSplit X.nrows m.probability sh).1)) = .ok res ∧
      res.rows.length = ((sampleSplit X.nrows m.probability sh).1).length ∧
      ∀ k, k < ((sampleSplit X.nrows m.probability sh).1).length →
        out.rows.getD (((sampleSplit X.nrows m.probability sh).1).getD k 0)
            default
          = res.rows.getD k default := by
  cases X with
  | arr rows =>
    have hicf : ic = false := by
      rcases hic with h | ⟨d, hd⟩
      · exact h
      · simp at hd
    subst hicf
    obtain ⟨hsh, horig, crows, hcf, hclen, hcw, hout⟩ :=
      applyRun_arr_inv m cf sh rows false ti out orig hok
    rw [npShape_getD_toNat m _ hsh] at hout hcf hclen
    subst hout
    obtain ⟨hnd, hshlen, htb, hcb⟩ :=
      perm_facts (PyData.arr rows).nrows m.probability sh hperm
    refine ⟨.arr crows, hcf, hclen, ?_⟩
    intro k hk
    exact corruptRows_getD_tc rows crows _ _ _ _
      (sampleSplit_nodup_fst _ _ _ hnd)
      (sampleSplit_disjoint _ _ _ hnd) htb k hk (by rw [hclen]; exact hk)
  | df d =>
    obtain ⟨hsh, horig, cd, hcf, hclen, hcw, hout⟩ :=
      applyRun_df_inv m cf sh d ic ti out orig hok
    rw [npShape_getD_toNat m _ hsh] at hout hcf hclen
    subst hout
    obtain ⟨hnd, hshlen, htb, hcb⟩ :=
      perm_facts (PyData.df d).nrows m.probability sh hperm
    refine ⟨.df cd, hcf, hclen, ?_⟩
    intro k hk
    exact corruptRows_getD_tc d.data cd.data _ _ _ _
      (sampleSplit_nodup_fst _ _ _ hnd)
      (sampleSplit_disjoint _ _ _ hnd) htb k hk (by rw [hclen]; exact hk)

/-- Witness for C5 (amended) at the concrete 2x2 call: the sampled row
1 of the output is the zeroed row the corrupt stub returned. -/
theorem apply_corrupt_rows_written_back_witness :
    ∃ res : PyData Int,
      (fun (_ : PyData Int) =>
          (Except.ok (PyData.arr [[0, 0]]) : Except PyError (PyData Int)))
          ((PyData.arr (α := Int) [[1, 2], [3, 4]]).sub
            ((sampleSplit 2 (1/2 : ℚ) [1, 0]).1))
        = .ok res ∧
      res.rows.length = ((sampleSplit 2 (1/2 : ℚ) [1, 0]).1).length ∧
      ∀ k, k < ((sampleSplit 2 (1/2 : ℚ) [1, 0]).1).length →
        (PyData.arr (α := Int) [[1, 2], [0, 0]]).rows.getD
            (((sampleSplit 2 (1/2 : ℚ) [1, 0]).1).getD k 0) default
          = res.rows.getD k default :=
  apply_corrupt_rows_written_back ⟨[2, 2], 1/2, [0, 1], false, none⟩
    (fun _ => .ok (.arr [[0, 0]])) [1, 0] (.arr [[1, 2], [3, 4]]) false id
    (.arr [[1, 2], [0, 0]]) (.arr [[1, 2], [3, 4]])
    (by decide) (by decide) (.inl rfl)
    (by
      have hss : sampleSplit 2 (2⁻¹ : ℚ) [1, 0] = ([1], [0]) := by
        norm_num [sampleSplit, pyRound]
      simp [NoiseModel.applyRun, hss, PyData.sub, pySelect, corruptRows,
        setRows, PyData.npShape, PyData.nrows, PyData.ncols])

/-- The Python 2 `round` used by the sampling pass agrees with the
spec's fractional example: `round(5 * 0.3) = round(1.5) = 2`. -/
theorem pyRound_fractional_example : pyRound ((5 : ℚ) * (3/10)) = 2 := by
  norm_num [pyRound]
